import Mathlib

/-!
Verification of the PLGA-Portal activity server (`server.js`).

The embedding models the activity data model, the creation (ingestion)
handler, the day/month overlap queries, and deletion, mirroring the
current `server.js` (the revision implementing the interval-overlap
engine). Dates and times are ISO-format strings compared
lexicographically, exactly as in the source (`endDate < date` on JS
strings); timestamps (`Date.now`) are naturals.
-/

namespace PLGA

/-- An attachment record, as built in the POST handler from a multer file:
`{ fileName, originalName, mimeType, size, url }` plus the schema default
`uploadedAt: Date.now`. -/
structure Attachment where
  fileName : String
  originalName : String
  mimeType : String
  size : Nat
  url : String
  uploadedAt : Nat
  deriving Repr, DecidableEq

/-- A raw uploaded file as multer hands it to the handler
(`file.filename`, `file.originalname`, `file.mimetype`, `file.size`). -/
structure RawFile where
  filename : String
  originalname : String
  mimetype : String
  size : Nat
  deriving Repr, DecidableEq

/-- A stored Activity document (the mongoose `activitySchema`): `date` is
the start date, `endDate` the end date (both `YYYY-MM-DD` strings),
`createdAt` the creation timestamp. -/
structure Activity where
  date : String
  endDate : String
  isFullDay : Bool
  title : String
  category : String
  phase : String
  status : String
  startTime : String
  endTime : String
  notes : String
  attachments : List Attachment
  createdAt : Nat
  deriving Repr, DecidableEq

/-- The `isFullDay` field of a request body: a JSON/form value that may be
a boolean, a string, a number, or absent. -/
inductive FullDayInput where
  | boolean (b : Bool)
  | str (s : String)
  | num (n : Int)
  | absent
  deriving Repr, DecidableEq

/-- `fullDayFlag` from the POST handler:
`isFullDay === "true" || isFullDay === "on" || isFullDay === true`
(JS strict equality: a string only equals a string, a boolean only a
boolean). -/
def fullDayFlag (v : FullDayInput) : Bool :=
  match v with
  | .str s => s == "true" || s == "on"
  | .boolean b => b
  | .num _ => false
  | .absent => false

/-- The request body of `POST /api/activities`: each text field may be
absent (`none`); `files` is `req.files` (already past the multer
middleware). -/
structure CreateInput where
  date : Option String
  endDate : Option String
  title : Option String
  category : Option String
  phase : Option String
  status : Option String
  startTime : Option String
  endTime : Option String
  notes : Option String
  isFullDay : FullDayInput
  files : List RawFile
  deriving Repr, DecidableEq

/-- JS falsiness of an optional string field (`!x`): true when the field
is absent or the empty string. -/
def falsy (o : Option String) : Bool :=
  match o with
  | none => true
  | some s => s == ""

/-- The errors the modelled routes surface: `validation` is the 400
"... required." response, `uploadLimit` the multer rejection of more
than `maxCount` files. -/
inductive ApiError where
  | validation
  | uploadLimit
  deriving Repr, DecidableEq

/-- Attachment assembly from the POST handler:
`{ fileName: file.filename, originalName: file.originalname, mimeType:
file.mimetype, size: file.size, url: "/uploads/" + file.filename }`,
with `uploadedAt` defaulted to the current time by the schema. -/
def mkAttachment (now : Nat) (file : RawFile) : Attachment :=
  { fileName := file.filename
    originalName := file.originalname
    mimeType := file.mimetype
    size := file.size
    url := "/uploads/" ++ file.filename
    uploadedAt := now }

/-- The `POST /api/activities` handler body: validate `date`/`title`,
normalise `endDate` (default to `date`, then clamp when
`endDate < date`), resolve `isFullDay`, blank the times for full-day
activities, apply the schema defaults for omitted fields, and build the
document (`createdAt` defaulted to `now` by the schema). -/
def createActivity (now : Nat) (inp : CreateInput) : Except ApiError Activity :=
  if falsy inp.date || falsy inp.title then
    Except.error ApiError.validation
  else
    let date := inp.date.getD ""
    let endDate0 := if falsy inp.endDate then date else inp.endDate.getD ""
    let endDate := if endDate0 < date then date else endDate0
    let fdFlag := fullDayFlag inp.isFullDay
    Except.ok
      { date := date
        endDate := endDate
        isFullDay := fdFlag
        title := inp.title.getD ""
        category := inp.category.getD "Other"
        phase := inp.phase.getD "Unspecified"
        status := inp.status.getD "Planned"
        startTime := if fdFlag then "" else inp.startTime.getD ""
        endTime := if fdFlag then "" else inp.endTime.getD ""
        notes := inp.notes.getD ""
        attachments := inp.files.map (mkAttachment now)
        createdAt := now }

/-- The sort comparison `.sort({ date: 1, startTime: 1, createdAt: 1 })`
used by both GET routes: ascending by `date`, ties broken ascending by
`startTime`, then ascending by `createdAt`. -/
def actLE (a b : Activity) : Bool :=
  if a.date != b.date then a.date < b.date
  else if a.startTime != b.startTime then a.startTime < b.startTime
  else a.createdAt ≤ b.createdAt

/-- Sorted retrieval: the repository returns the filtered documents
ordered by `actLE`. -/
def sortActivities (l : List Activity) : List Activity :=
  l.mergeSort actLE

/-- The overlap test of the day query (`GET /api/activities/day`):
`date: { $lte: d }, endDate: { $gte: d }`. -/
def dayMatches (d : String) (a : Activity) : Bool :=
  a.date ≤ d && d ≤ a.endDate

/-- `GET /api/activities/day` handler: requires the `date` query
parameter (400 "Date is required." when absent or empty, i.e. falsy),
then returns the activities whose range covers that date, sorted. -/
def dayQuery (store : List Activity) (date : Option String) :
    Except ApiError (List Activity) :=
  if falsy date then
    Except.error ApiError.validation
  else
    Except.ok (sortActivities (store.filter (dayMatches (date.getD ""))))

/-- `parseInt(s, 10)` on a string of the form found in `YYYY-MM` pieces:
the leading run of decimal digits, `none` when there is no leading digit
(JS `NaN`). -/
def parseIntNat (s : String) : Option Nat :=
  let digits := s.toList.takeWhile (fun c => c.isDigit)
  if digits.isEmpty then none
  else some (digits.foldl (fun acc c => acc * 10 + (c.toNat - 48)) 0)

/-- Gregorian leap-year rule, as implemented by the JS `Date` calendar. -/
def isLeapYear (y : Nat) : Bool :=
  (y % 4 == 0 && y % 100 != 0) || y % 400 == 0

/-- `new Date(y, m, 0).getDate()` for a 1-based month number `m`: the
number of days of calendar month `m` of year `y` (day `0` of JS month
index `m` is the last day of the preceding month, i.e. of calendar month
`m`).  Faithful for the month numbers `1..12` that a `YYYY-MM` query
carries. -/
def daysInMonth (y m : Nat) : Nat :=
  if m == 2 then (if isLeapYear y then 29 else 28)
  else if m == 4 || m == 6 || m == 9 || m == 11 then 30
  else 31

/-- `pad2`: `n.toString().padStart(2, "0")`. -/
def pad2 (n : Nat) : String :=
  let s := toString n
  if s.length < 2 then "0" ++ s else s

/-- The last-day component of `endOfMonth`: `pad2(new Date(y, m, 0)
.getDate())` when both pieces parse, the JS string `"NaN"` otherwise
(`pad2(NaN)` stringifies to `"NaN"`). -/
def lastDayStr (yearStr monthStr : String) : String :=
  match parseIntNat yearStr, parseIntNat monthStr with
  | some y, some m => pad2 (daysInMonth y m)
  | _, _ => "NaN"

/-- JS `String.prototype.split("-")` on a character list: groups of
characters between the `-` separators (`""` pieces included, as JS
produces them). -/
def splitDash (cs : List Char) : List (List Char) :=
  match cs with
  | [] => [[]]
  | c :: rest =>
    if c = '-' then [] :: splitDash rest
    else
      match splitDash rest with
      | [] => [[c]]
      | g :: gs => (c :: g) :: gs

/-- `month.split("-")`: the string pieces between `-` separators. -/
def jsSplitDash (s : String) : List String :=
  (splitDash s.toList).map (fun g => String.mk g)

/-- The overlap test of the month query:
`date: { $lte: endOfMonth }, endDate: { $gte: startOfMonth }`. -/
def monthMatches (startOfMonth endOfMonth : String) (a : Activity) : Bool :=
  a.date ≤ endOfMonth && startOfMonth ≤ a.endDate

/-- `GET /api/activities` handler: with no (or falsy) `month` parameter
the filter is empty and every activity is returned; otherwise the month
string is split on `-` into `yearStr`/`monthStr`, `startOfMonth` is
`yearStr-monthStr-01`, `endOfMonth` is `yearStr-monthStr-<lastDay>`, and
the activities overlapping `[startOfMonth, endOfMonth]` are returned.
All results are sorted by `actLE`. -/
def monthQuery (store : List Activity) (month : Option String) :
    List Activity :=
  if falsy month then
    sortActivities store
  else
    let mo := month.getD ""
    let parts := jsSplitDash mo
    let yearStr := parts.getD 0 ""
    let monthStr := (parts.getD 1 "")
    let startOfMonth := yearStr ++ "-" ++ monthStr ++ "-01"
    let endOfMonth := yearStr ++ "-" ++ monthStr ++ "-" ++ lastDayStr yearStr monthStr
    sortActivities (store.filter (monthMatches startOfMonth endOfMonth))

/-- A persisted store: documents keyed by their repository-assigned
`_id` (unique, opaque). -/
abbrev Store := List (String × Activity)

/-- `DELETE /api/activities/:id`: `Activity.findByIdAndDelete(id)`
removes the document with the given id when present, is a no-op
otherwise, and the route answers `{ success: true }` either way
(`true` in the first component). -/
def deleteActivity (st : Store) (id : String) : Bool × Store :=
  (true, List.filter (fun p => p.1 != id) st)

/-- The multer middleware `upload.array("files", 10)`: at most
`maxCount` files under the `files` field; a request with more is
rejected before the handler runs. -/
def uploadArray (maxCount : Nat) (files : List RawFile) :
    Except ApiError (List RawFile) :=
  if files.length > maxCount then Except.error ApiError.uploadLimit
  else Except.ok files

/-- The full `POST /api/activities` route on a store: the multer
middleware first, then the handler; on any error the store is unchanged
and the error is reported, otherwise the new document is inserted under
a fresh id. -/
def postActivity (st : Store) (newId : String) (now : Nat)
    (inp : CreateInput) : Except ApiError Unit × Store :=
  match uploadArray 10 inp.files with
  | Except.error e => (Except.error e, st)
  | Except.ok _ =>
    match createActivity now inp with
    | Except.error e => (Except.error e, st)
    | Except.ok a => (Except.ok (), st ++ [(newId, a)])

/-! ## Helper lemmas -/

lemma falsy_some_ne {s : String} (h : s ≠ "") : falsy (some s) = false := by
  simp [falsy, h]

lemma createActivity_cond_false {inp : CreateInput} {d t : String}
    (hd : inp.date = some d) (hd0 : d ≠ "")
    (ht : inp.title = some t) (ht0 : t ≠ "") :
    (falsy inp.date || falsy inp.title) = false := by
  rw [hd, ht, falsy_some_ne hd0, falsy_some_ne ht0]
  rfl

lemma empty_lt_of_ne (s : String) (h : s ≠ "") : "" < s := by
  cases s with
  | mk data =>
    cases data with
    | nil => exact absurd rfl h
    | cons c cs =>
      rw [String.lt_iff_toList_lt]
      exact List.nil_lt_cons c cs

/-! ## Claim theorems -/

/-- C1: for every creation input with non-empty `startDate` (`date`) and
`title`, creation succeeds, an absent `endDate` is defaulted to
`startDate`, a supplied `endDate` lexicographically below `startDate` is
clamped to `startDate`, and the persisted record always satisfies
`endDate >= startDate` under lexicographic string comparison. -/
theorem createActivity_range_normalization (now : Nat) (inp : CreateInput)
    (d t : String) (hd : inp.date = some d) (hd0 : d ≠ "")
    (ht : inp.title = some t) (ht0 : t ≠ "") :
    ∃ a : Activity, createActivity now inp = Except.ok a ∧
      (inp.endDate = none → a.endDate = d) ∧
      (∀ e, inp.endDate = some e → e < d → a.endDate = d) ∧
      d ≤ a.endDate := by
  have hcond := createActivity_cond_false hd hd0 ht ht0
  have hgetd : inp.date.getD "" = d := by rw [hd]; rfl
  simp only [createActivity, hcond, Bool.false_eq_true, if_false, hgetd]
  refine ⟨_, rfl, ?_, ?_, ?_⟩
  · intro h
    simp [falsy, h]
  · intro e he hlt
    rw [he]
    by_cases heq : e = "" <;> simp [falsy, heq, hlt]
  · by_cases h : (if falsy inp.endDate = true then d else inp.endDate.getD "") < d
    · simp [h]
    · simp only [h, if_false]
      exact le_of_not_lt h

/-- C1 witness: the spec scenario `{startDate := "2025-03-10", title :=
"Kickoff"}` with no `endDate`. -/
theorem createActivity_range_normalization_witness :
    ∃ a : Activity,
      createActivity 0
        { date := some "2025-03-10", endDate := none, title := some "Kickoff",
          category := none, phase := none, status := none, startTime := none,
          endTime := none, notes := none, isFullDay := FullDayInput.absent,
          files := [] } = Except.ok a ∧
      ((none : Option String) = none → a.endDate = "2025-03-10") ∧
      (∀ e, (none : Option String) = some e → e < "2025-03-10" → a.endDate = "2025-03-10") ∧
      "2025-03-10" ≤ a.endDate :=
  createActivity_range_normalization 0 _ "2025-03-10" "Kickoff" rfl
    (by decide) rfl (by decide)

/-- C5: whenever the `isFullDay` field resolves to true, the persisted
activity has empty `startTime` and `endTime`, regardless of any supplied
times. -/
theorem createActivity_fullDay_clears_times (now : Nat) (inp : CreateInput)
    (a : Activity) (hfd : fullDayFlag inp.isFullDay = true)
    (hok : createActivity now inp = Except.ok a) :
    a.startTime = "" ∧ a.endTime = "" := by
  unfold createActivity at hok
  split at hok
  · exact absurd hok (by simp)
  · injection hok with h
    subst h
    simp [hfd]

/-- The record persisted for the C5 witness request: full-day, supplied
times dropped. -/
def fullDayWitnessRecord : Activity :=
  { date := "2025-03-10", endDate := "2025-03-10", isFullDay := true,
    title := "K", category := "Other", phase := "Unspecified",
    status := "Planned", startTime := "", endTime := "", notes := "",
    attachments := [], createdAt := 0 }

/-- C5 witness: a full-day creation with supplied times persists empty
times. -/
theorem createActivity_fullDay_clears_times_witness :
    fullDayWitnessRecord.startTime = "" ∧
    fullDayWitnessRecord.endTime = "" :=
  createActivity_fullDay_clears_times 0
    { date := some "2025-03-10", endDate := none, title := some "K",
      category := none, phase := none, status := none,
      startTime := some "09:00", endTime := some "10:00", notes := none,
      isFullDay := FullDayInput.str "on", files := [] }
    fullDayWitnessRecord (by decide)
    (by simp [createActivity, falsy, fullDayWitnessRecord, fullDayFlag])

/-- C8: creation performs no date-format validation: for every non-empty
`startDate` string, valid date or not, creation succeeds and the
persisted record still satisfies `endDate >= startDate`
lexicographically. -/
theorem createActivity_no_format_validation (now : Nat) (inp : CreateInput)
    (d t : String) (hd : inp.date = some d) (hd0 : d ≠ "")
    (ht : inp.title = some t) (ht0 : t ≠ "") :
    ∃ a : Activity, createActivity now inp = Except.ok a ∧
      a.date = d ∧ d ≤ a.endDate := by
  have hcond := createActivity_cond_false hd hd0 ht ht0
  have hgetd : inp.date.getD "" = d := by rw [hd]; rfl
  simp only [createActivity, hcond, Bool.false_eq_true, if_false, hgetd]
  refine ⟨_, rfl, rfl, ?_⟩
  by_cases h : (if falsy inp.endDate = true then d else inp.endDate.getD "") < d
  · simp [h]
  · simp only [h, if_false]
    exact le_of_not_lt h

/-- C8 witness: creation succeeds for the non-date string `"banana"`. -/
theorem createActivity_no_format_validation_witness :
    ∃ a : Activity,
      createActivity 0
        { date := some "banana", endDate := none, title := some "T",
          category := none, phase := none, status := none, startTime := none,
          endTime := none, notes := none, isFullDay := FullDayInput.absent,
          files := [] } = Except.ok a ∧
      a.date = "banana" ∧ "banana" ≤ a.endDate :=
  createActivity_no_format_validation 0 _ "banana" "T" rfl (by decide) rfl
    (by decide)

/-- C9: `isFullDay` resolves to true exactly for the boolean `true` and
the strings `"true"` and `"on"`; in particular `"1"`, `"yes"`, `"True"`,
the number `1` and absence all resolve to false. -/
theorem fullDayFlag_exact :
    (∀ v : FullDayInput, fullDayFlag v = true ↔
      (v = FullDayInput.boolean true ∨ v = FullDayInput.str "true" ∨
        v = FullDayInput.str "on")) ∧
    fullDayFlag (FullDayInput.str "1") = false ∧
    fullDayFlag (FullDayInput.str "yes") = false ∧
    fullDayFlag (FullDayInput.str "True") = false ∧
    fullDayFlag (FullDayInput.num 1) = false ∧
    fullDayFlag FullDayInput.absent = false := by
  refine ⟨?_, by decide, by decide, by decide, by decide, rfl⟩
  intro v
  cases v with
  | str s => simp [fullDayFlag]
  | boolean b => cases b <;> simp [fullDayFlag]
  | num n => simp [fullDayFlag]
  | absent => simp [fullDayFlag]

/-- C9 witness: the form encoding `"on"` resolves to true. -/
theorem fullDayFlag_exact_witness :
    fullDayFlag (FullDayInput.str "on") = true :=
  (fullDayFlag_exact.1 (FullDayInput.str "on")).mpr (Or.inr (Or.inr rfl))

/-- C7: deleting an id with no matching activity answers success and
leaves the store unchanged, and deletion is idempotent: on any store a
second deletion of the same id also succeeds and changes nothing
further. -/
theorem deleteActivity_idempotent (st : Store) (id : String)
    (h : ∀ p ∈ st, p.1 ≠ id) :
    deleteActivity st id = (true, st) ∧
    ∀ st2 : Store, (deleteActivity st2 id).1 = true ∧
      deleteActivity (deleteActivity st2 id).2 id = deleteActivity st2 id := by
  constructor
  · have hfix : List.filter (fun p => p.1 != id) st = st :=
      List.filter_eq_self.mpr (fun p hp => by simpa [bne_iff_ne] using h p hp)
    simp [deleteActivity, hfix]
  · intro st2
    refine ⟨rfl, ?_⟩
    simp [deleteActivity, List.filter_filter]

/-- C7 witness: deleting `"missing"` from the empty store. -/
theorem deleteActivity_idempotent_witness :
    deleteActivity ([] : Store) "missing" = (true, ([] : Store)) ∧
    ∀ st2 : Store, (deleteActivity st2 "missing").1 = true ∧
      deleteActivity (deleteActivity st2 "missing").2 "missing" =
        deleteActivity st2 "missing" :=
  deleteActivity_idempotent [] "missing" (by simp)

lemma mem_sortActivities {a : Activity} {l : List Activity} :
    a ∈ sortActivities l ↔ a ∈ l := by
  simp [sortActivities]

/-- C2: the day query fails with a validation error when the date is
absent; for a present date `d` it returns exactly the stored activities
with `startDate <= d` and `endDate >= d` under lexicographic comparison
(so multi-day activities spanning `d` are included and activities whose
interval misses `d` are excluded). -/
theorem dayQuery_overlap (store : List Activity) (d : String) (a : Activity)
    (hd : d ≠ "") :
    dayQuery store none = Except.error ApiError.validation ∧
    ∃ l, dayQuery store (some d) = Except.ok l ∧
      (a ∈ l ↔ a ∈ store ∧ a.date ≤ d ∧ d ≤ a.endDate) := by
  refine ⟨rfl, ?_⟩
  have hq : dayQuery store (some d) =
      Except.ok (sortActivities (store.filter (dayMatches d))) := by
    simp [dayQuery, falsy_some_ne hd]
  refine ⟨_, hq, ?_⟩
  simp [mem_sortActivities, List.mem_filter, dayMatches]

/-- A sample stored activity spanning `2025-01-30..2025-02-02`, the
spec's overlap scenario, used to instantiate witnesses. -/
def sampleActivity : Activity :=
  { date := "2025-01-30", endDate := "2025-02-02", isFullDay := false,
    title := "A", category := "Other", phase := "Unspecified",
    status := "Planned", startTime := "", endTime := "", notes := "",
    attachments := [], createdAt := 1 }

/-- C2 witness: the spec scenario — day `"2025-02-01"` against an
activity spanning `2025-01-30..2025-02-02` is included. -/
theorem dayQuery_overlap_witness :
    dayQuery [sampleActivity] none = Except.error ApiError.validation ∧
    ∃ l, dayQuery [sampleActivity] (some "2025-02-01") = Except.ok l ∧
      (sampleActivity ∈ l ↔ sampleActivity ∈ [sampleActivity] ∧
        sampleActivity.date ≤ "2025-02-01" ∧
        "2025-02-01" ≤ sampleActivity.endDate) :=
  dayQuery_overlap [sampleActivity] "2025-02-01" sampleActivity (by decide)

/-- C3: for a month given as `yearStr-monthStr` with numeric pieces `y`
and `m`, the month query filters on `startOfMonth = yearStr-monthStr-01`
and `endOfMonth = yearStr-monthStr-<lastDay>` with the last day
calendar-correct (Gregorian February rule, 29 for 2024-02 and 28 for
2023-02); it returns exactly the stored activities with
`startDate <= endOfMonth` and `endDate >= startOfMonth`; with no month
argument it returns every stored activity. -/
theorem monthQuery_overlap (store : List Activity) (a : Activity)
    (mo ys ms : String) (y m : Nat)
    (hmo : mo ≠ "")
    (hsplit : jsSplitDash mo = [ys, ms])
    (hy : parseIntNat ys = some y) (hm : parseIntNat ms = some m) :
    (a ∈ monthQuery store (some mo) ↔
      a ∈ store ∧
        a.date ≤ ys ++ "-" ++ ms ++ "-" ++ pad2 (daysInMonth y m) ∧
        ys ++ "-" ++ ms ++ "-01" ≤ a.endDate) ∧
    daysInMonth 2024 2 = 29 ∧
    daysInMonth 2023 2 = 28 ∧
    (∀ yy, daysInMonth yy 2 = if isLeapYear yy then 29 else 28) ∧
    (a ∈ monthQuery store none ↔ a ∈ store) := by
  refine ⟨?_, by decide, by decide, ?_, ?_⟩
  · have hq : monthQuery store (some mo) =
        sortActivities (store.filter
          (monthMatches (ys ++ "-" ++ ms ++ "-01")
            (ys ++ "-" ++ ms ++ "-" ++ pad2 (daysInMonth y m)))) := by
      simp [monthQuery, falsy_some_ne hmo, hsplit, lastDayStr, hy, hm]
    rw [hq]
    simp [mem_sortActivities, List.mem_filter, monthMatches]
  · intro yy
    simp [daysInMonth]
  · simp [monthQuery, falsy, mem_sortActivities]

/-- C3 witness: the spec scenario — month `"2025-02"` against an
activity spanning `2025-01-30..2025-02-02` is included (it overlaps the
month start), and February lengths are calendar-correct. -/
theorem monthQuery_overlap_witness :
    (sampleActivity ∈ monthQuery [sampleActivity] (some "2025-02") ↔
      sampleActivity ∈ [sampleActivity] ∧
      sampleActivity.date ≤ "2025" ++ "-" ++ "02" ++ "-" ++
        pad2 (daysInMonth 2025 2) ∧
      "2025" ++ "-" ++ "02" ++ "-01" ≤ sampleActivity.endDate) ∧
    daysInMonth 2024 2 = 29 ∧
    daysInMonth 2023 2 = 28 ∧
    (∀ yy, daysInMonth yy 2 = if isLeapYear yy then 29 else 28) ∧
    (sampleActivity ∈ monthQuery [sampleActivity] none ↔
      sampleActivity ∈ [sampleActivity]) :=
  monthQuery_overlap [sampleActivity] sampleActivity "2025-02" "2025" "02"
    2025 2 (by decide) (by decide) (by decide) (by decide)

/-- `actLE` spelt out: ascending lexicographic comparison of
`(date, startTime, createdAt)`. -/
lemma actLE_iff (a b : Activity) :
    actLE a b = true ↔
      (a.date < b.date ∨ (a.date = b.date ∧
        (a.startTime < b.startTime ∨
          (a.startTime = b.startTime ∧ a.createdAt ≤ b.createdAt)))) := by
  unfold actLE
  by_cases h1 : a.date = b.date
  · by_cases h2 : a.startTime = b.startTime
    · simp [h1, h2, lt_irrefl]
    · simp [h1, h2, lt_irrefl]
  · simp [h1]

lemma actLE_trans (a b c : Activity) (hab : actLE a b) (hbc : actLE b c) :
    actLE a c := by
  rw [actLE_iff] at hab hbc ⊢
  rcases hab with hd1 | ⟨hd1, hst1⟩
  · rcases hbc with hd2 | ⟨hd2, _⟩
    · exact Or.inl (lt_trans hd1 hd2)
    · exact Or.inl (hd2 ▸ hd1)
  · rcases hbc with hd2 | ⟨hd2, hst2⟩
    · exact Or.inl (hd1 ▸ hd2)
    · refine Or.inr ⟨hd1.trans hd2, ?_⟩
      rcases hst1 with hs1 | ⟨hs1, hc1⟩
      · rcases hst2 with hs2 | ⟨hs2, _⟩
        · exact Or.inl (lt_trans hs1 hs2)
        · exact Or.inl (hs2 ▸ hs1)
      · rcases hst2 with hs2 | ⟨hs2, hc2⟩
        · exact Or.inl (hs1 ▸ hs2)
        · exact Or.inr ⟨hs1.trans hs2, le_trans hc1 hc2⟩

lemma actLE_total (a b : Activity) : actLE a b || actLE b a := by
  rw [Bool.or_eq_true, actLE_iff, actLE_iff]
  rcases lt_trichotomy a.date b.date with h | h | h
  · exact Or.inl (Or.inl h)
  · rcases lt_trichotomy a.startTime b.startTime with h2 | h2 | h2
    · exact Or.inl (Or.inr ⟨h, Or.inl h2⟩)
    · rcases le_total a.createdAt b.createdAt with h3 | h3
      · exact Or.inl (Or.inr ⟨h, Or.inr ⟨h2, h3⟩⟩)
      · exact Or.inr (Or.inr ⟨h.symm, Or.inr ⟨h2.symm, h3⟩⟩)
    · exact Or.inr (Or.inr ⟨h.symm, Or.inl h2⟩)
  · exact Or.inr (Or.inl h)

lemma sortActivities_pairwise (l : List Activity) :
    (sortActivities l).Pairwise (fun a b => actLE a b = true) :=
  List.sorted_mergeSort actLE_trans (fun a b => actLE_total a b) l

/-- C4: both queries return their results sorted by the three-key
comparison `actLE` (ascending `date`, then `startTime`, then
`createdAt`); this comparison is total, reports two activities mutually
below each other only when all three keys agree, and on equal dates an
empty `startTime` sorts strictly before any non-empty one. -/
theorem queries_sorted_total_order :
    (∀ (store : List Activity) (d : Option String) (l : List Activity),
      dayQuery store d = Except.ok l →
      l.Pairwise (fun a b => actLE a b = true)) ∧
    (∀ (store : List Activity) (m : Option String),
      (monthQuery store m).Pairwise (fun a b => actLE a b = true)) ∧
    (∀ a b : Activity, actLE a b = true ∨ actLE b a = true) ∧
    (∀ a b : Activity, actLE a b = true → actLE b a = true →
      a.date = b.date ∧ a.startTime = b.startTime ∧
        a.createdAt = b.createdAt) ∧
    (∀ a b : Activity, a.date = b.date → a.startTime = "" →
      b.startTime ≠ "" → actLE a b = true ∧ actLE b a = false) := by
  refine ⟨?_, ?_, ?_, ?_, ?_⟩
  · intro store d l hok
    unfold dayQuery at hok
    split at hok
    · exact absurd hok (by simp)
    · injection hok with h
      subst h
      exact sortActivities_pairwise _
  · intro store m
    unfold monthQuery
    split
    · exact sortActivities_pairwise _
    · exact sortActivities_pairwise _
  · intro a b
    have h := actLE_total a b
    rw [Bool.or_eq_true] at h
    exact h
  · intro a b hab hba
    rw [actLE_iff] at hab hba
    rcases hab with hd1 | ⟨hd1, hst1⟩
    · rcases hba with hd2 | ⟨hd2, _⟩
      · exact absurd hd2 (lt_asymm hd1)
      · exact absurd hd2.symm (ne_of_lt hd1)
    · rcases hba with hd2 | ⟨_, hst2⟩
      · exact absurd hd1.symm (ne_of_lt hd2)
      · refine ⟨hd1, ?_⟩
        rcases hst1 with hs1 | ⟨hs1, hc1⟩
        · rcases hst2 with hs2 | ⟨hs2, _⟩
          · exact absurd hs2 (lt_asymm hs1)
          · exact absurd hs2.symm (ne_of_lt hs1)
        · rcases hst2 with hs2 | ⟨_, hc2⟩
          · exact absurd hs1.symm (ne_of_lt hs2)
          · exact ⟨hs1, le_antisymm hc1 hc2⟩
  · intro a b hdate hsa hsb
    have hlt : a.startTime < b.startTime := hsa ▸ empty_lt_of_ne _ hsb
    constructor
    · rw [actLE_iff]
      exact Or.inr ⟨hdate, Or.inl hlt⟩
    · have hne : ¬ actLE b a = true := by
        rw [actLE_iff]
        rintro (h | ⟨-, h | ⟨h, -⟩⟩)
        · exact absurd (hdate ▸ h) (lt_irrefl _)
        · exact absurd h (lt_asymm hlt)
        · exact hsb (h.trans hsa)
      exact Bool.eq_false_iff.mpr hne

/-- C4 witness: a full-day activity sorts strictly before a timed one on
the same date. -/
theorem queries_sorted_total_order_witness :
    actLE sampleActivity { sampleActivity with startTime := "09:00" } = true ∧
    actLE { sampleActivity with startTime := "09:00" } sampleActivity =
      false :=
  queries_sorted_total_order.2.2.2.2 sampleActivity
    { sampleActivity with startTime := "09:00" } rfl rfl (by decide)

/-- C6: creation fails with a validation error exactly when `date`
(startDate) or `title` is missing or empty, validation is the only
failure the handler itself produces, in that case the store receives no
write, and the optional classification fields receive their schema
defaults (`"Other"`, `"Unspecified"`, `"Planned"`, `""`). -/
theorem create_validation_and_defaults (st : Store) (newId : String)
    (now : Nat) (inp : CreateInput) :
    ((createActivity now inp = Except.error ApiError.validation) ↔
      (falsy inp.date = true ∨ falsy inp.title = true)) ∧
    (∀ e, createActivity now inp = Except.error e →
      e = ApiError.validation) ∧
    ((falsy inp.date = true ∨ falsy inp.title = true) →
      (postActivity st newId now inp).2 = st) ∧
    (∀ a, createActivity now inp = Except.ok a →
      (inp.category = none → a.category = "Other") ∧
      (inp.phase = none → a.phase = "Unspecified") ∧
      (inp.status = none → a.status = "Planned") ∧
      (inp.notes = none → a.notes = "")) := by
  have hval : (createActivity now inp = Except.error ApiError.validation) ↔
      (falsy inp.date = true ∨ falsy inp.title = true) := by
    unfold createActivity
    by_cases h : (falsy inp.date || falsy inp.title) = true
    · rw [Bool.or_eq_true] at h
      simp [h]
    · rw [Bool.or_eq_true] at h
      push_neg at h
      simp [h.1, h.2]
  refine ⟨hval, ?_, ?_, ?_⟩
  · intro e he
    unfold createActivity at he
    split at he
    · injection he with h
      exact h.symm
    · exact absurd he (by simp)
  · intro hor
    have herr := hval.mpr hor
    unfold postActivity uploadArray
    by_cases hf : inp.files.length > 10
    · simp [hf]
    · simp [hf, herr]
  · intro a hok
    unfold createActivity at hok
    split at hok
    · exact absurd hok (by simp)
    · injection hok with h
      subst h
      refine ⟨?_, ?_, ?_, ?_⟩ <;> intro hnone <;> simp [hnone]

/-- C6 witness: a request with an empty `date` is rejected and the store
is untouched. -/
theorem create_validation_and_defaults_witness :
    ((createActivity 0
        { date := some "", endDate := none, title := some "T",
          category := none, phase := none, status := none, startTime := none,
          endTime := none, notes := none, isFullDay := FullDayInput.absent,
          files := [] } = Except.error ApiError.validation) ↔
      (falsy (some "") = true ∨ falsy (some "T") = true)) ∧
    (∀ e, createActivity 0
        { date := some "", endDate := none, title := some "T",
          category := none, phase := none, status := none, startTime := none,
          endTime := none, notes := none, isFullDay := FullDayInput.absent,
          files := [] } = Except.error e → e = ApiError.validation) ∧
    ((falsy (some "") = true ∨ falsy (some "T") = true) →
      (postActivity [] "id1" 0
        { date := some "", endDate := none, title := some "T",
          category := none, phase := none, status := none, startTime := none,
          endTime := none, notes := none, isFullDay := FullDayInput.absent,
          files := [] }).2 = []) ∧
    (∀ a, createActivity 0
        { date := some "", endDate := none, title := some "T",
          category := none, phase := none, status := none, startTime := none,
          endTime := none, notes := none, isFullDay := FullDayInput.absent,
          files := [] } = Except.ok a →
      ((none : Option String) = none → a.category = "Other") ∧
      ((none : Option String) = none → a.phase = "Unspecified") ∧
      ((none : Option String) = none → a.status = "Planned") ∧
      ((none : Option String) = none → a.notes = "")) :=
  create_validation_and_defaults [] "id1" 0 _

/-- C10: the multer middleware caps a creation request at 10 files: with
more than 10 the request is rejected with the upload-limit error and the
store is unchanged, so every document in the store after a `POST` is
either pre-existing or carries at most 10 attachments. -/
theorem postActivity_upload_limit (st : Store) (newId : String) (now : Nat)
    (inp : CreateInput) :
    (inp.files.length > 10 →
      postActivity st newId now inp = (Except.error ApiError.uploadLimit, st)) ∧
    (∀ p ∈ (postActivity st newId now inp).2,
      p ∈ st ∨ p.2.attachments.length ≤ 10) := by
  constructor
  · intro h
    unfold postActivity uploadArray
    simp [h]
  · intro p hp
    unfold postActivity uploadArray at hp
    by_cases hf : inp.files.length > 10
    · simp [hf] at hp
      exact Or.inl hp
    · simp only [hf, if_false] at hp
      cases hca : createActivity now inp with
      | error e =>
        rw [hca] at hp
        exact Or.inl hp
      | ok a =>
        rw [hca] at hp
        simp only [List.mem_append, List.mem_singleton] at hp
        rcases hp with hp | hp
        · exact Or.inl hp
        · right
          rw [hp]
          unfold createActivity at hca
          split at hca
          · exact absurd hca (by simp)
          · injection hca with h
            subst h
            simp only [List.length_map]
            omega

/-- C10 witness: eleven files are rejected and the empty store stays
empty. -/
theorem postActivity_upload_limit_witness :
    postActivity [] "id1" 0
      { date := some "2025-03-10", endDate := none, title := some "T",
        category := none, phase := none, status := none, startTime := none,
        endTime := none, notes := none, isFullDay := FullDayInput.absent,
        files := List.replicate 11
          { filename := "f", originalname := "o", mimetype := "m",
            size := 0 } } =
      (Except.error ApiError.uploadLimit, []) :=
  (postActivity_upload_limit [] "id1" 0 _).1 (by decide)

end PLGA
